import Mathlib

/-!
Verification of the volume/mask alignment engine of the online proofreading
tool (`backend/volume_manager.py` and `routes/editor.py`).

Arrays are embedded shallowly: a 2-D (resp. 3-D) numpy array becomes a
structure holding its dtype, its dimensions, and a total function giving the
value at each index (values are rationals; uint8 data holds integer values in
[0, 255]).  Operations that can raise in Python (numpy `IndexError`,
`ValueError` from `np.min` on empty arrays, `cv2.resize` on empty inputs)
return `Option`/`Except`, with `none`/`error` modelling the raised exception.
-/

/-- Dtype tag: `uint8` versus anything else (`_to_uint8` only branches on
whether the dtype is already `np.uint8`). -/
inductive DType where
  | uint8
  | other
deriving DecidableEq

/-- np.clip x lo hi = min(max(x, lo), hi). -/
def clipQ (lo hi x : ℚ) : ℚ := max lo (min x hi)

/-- Cast to uint8 as `astype(np.uint8)` does: truncation toward zero.  Every
call site first clips its argument into [0, 255], so truncation coincides with
the floor and no modular wrap-around occurs. -/
def u8cast (x : ℚ) : ℚ := ((⌊x⌋ : ℤ) : ℚ)

/-- One element of the linear rescale performed by `_to_uint8`
(volume_manager.py line 29-30): `np.clip((x - mn) / (mx - mn) * 255, 0, 255)`
followed by the uint8 cast. -/
def u8scale (mn mx x : ℚ) : ℚ := u8cast (clipQ 0 255 ((x - mn) / (mx - mn) * 255))

/-- A numpy array of arbitrary shape, flattened: `_to_uint8`
(volume_manager.py lines 22-30) is elementwise after a global min/max, so the
element list together with the dtype determines its behaviour. -/
structure QArr where
  dtype : DType
  data : List ℚ
deriving DecidableEq

/-- `_to_uint8` (volume_manager.py lines 22-30).  `none` models the
`ValueError` that `np.min`/`np.max` raise on a size-0 array; on the
constant-image branch `np.zeros_like(arr, dtype=np.uint8)` yields zeros of the
same shape. -/
def to_uint8 (a : QArr) : Option QArr :=
  if a.dtype = DType.uint8 then some a
  else
    match a.data with
    | [] => none
    | x :: xs =>
      let mn := xs.foldl min x
      let mx := xs.foldl max x
      if mx ≤ mn then some ⟨DType.uint8, a.data.map fun _ => 0⟩
      else some ⟨DType.uint8, a.data.map fun t => u8scale mn mx t⟩

/-- The elementwise formula the spec claims for the rescale branch:
`clip(round((x - min) / (max - min) * 255), 0, 255)`.  Rounding is modelled
half-up; `np.round` rounds half to even, and the two agree at every value at
which they are compared below (127.5 rounds to 128 under both conventions). -/
def claimedRoundElem (mn mx x : ℚ) : ℚ :=
  clipQ 0 255 ((⌊(x - mn) / (mx - mn) * 255 + 1/2⌋ : ℤ) : ℚ)

/-- A 2-D numpy array: dtype, dimensions `(h, w)` and the value at each
in-bounds index (the function is total; out-of-bounds arguments are never
read by in-bounds reasoning). -/
structure Arr2 where
  dtype : DType
  h : ℕ
  w : ℕ
  val : ℕ → ℕ → ℚ

/-- A 3-D numpy array with dimensions `(d0, d1, d2)`. -/
structure Arr3 where
  dtype : DType
  d0 : ℕ
  d1 : ℕ
  d2 : ℕ
  val : ℕ → ℕ → ℕ → ℚ

/-- A 2-D or 3-D array, the two ranks the loaders of this repository handle
(arrays of any other rank fall through to the final `ValueError` in
`load_image_or_stack` and cannot reach the alignment logic). -/
inductive Nd where
  | a2 (m : Arr2)
  | a3 (m : Arr3)

/-- `arr.shape`, as the list of dimensions (a Python tuple). -/
def Nd.shape : Nd → List ℕ
  | .a2 m => [m.h, m.w]
  | .a3 m => [m.d0, m.d1, m.d2]

/-- `arr.ndim`. -/
def Nd.ndim : Nd → ℕ
  | .a2 _ => 2
  | .a3 _ => 3

/-- The dtype of a 2-D or 3-D array. -/
def Nd.dtype : Nd → DType
  | .a2 m => m.dtype
  | .a3 m => m.dtype

/-- All dimensions positive, i.e. the array has at least one element. -/
def Nd.PosDims : Nd → Prop
  | .a2 m => 0 < m.h ∧ 0 < m.w
  | .a3 m => 0 < m.d0 ∧ 0 < m.d1 ∧ 0 < m.d2

/-- Every in-bounds element of the array satisfies `P`. -/
def Nd.AllVals : Nd → (ℚ → Prop) → Prop
  | .a2 m, P => ∀ i j, i < m.h → j < m.w → P (m.val i j)
  | .a3 m, P => ∀ i j k, i < m.d0 → j < m.d1 → k < m.d2 → P (m.val i j k)

/-- The flattened element list of a 2-D array (row-major), used for the
global `np.min`/`np.max` of `_to_uint8`. -/
def Arr2.elems (m : Arr2) : List ℚ :=
  (List.range m.h).flatMap fun i => (List.range m.w).map fun j => m.val i j

/-- The flattened element list of a 3-D array. -/
def Arr3.elems (m : Arr3) : List ℚ :=
  (List.range m.d0).flatMap fun i =>
    (List.range m.d1).flatMap fun j =>
      (List.range m.d2).map fun k => m.val i j k

/-- `_to_uint8` acting on a 2-D array (same algorithm as `to_uint8` above,
expressed on the indexed representation).  `none` models the `ValueError`
raised by `np.min` on a size-0 array. -/
def to_uint8A2 (m : Arr2) : Option Arr2 :=
  if m.dtype = DType.uint8 then some m
  else
    match m.elems with
    | [] => none
    | x :: xs =>
      let mn := xs.foldl min x
      let mx := xs.foldl max x
      if mx ≤ mn then some ⟨DType.uint8, m.h, m.w, fun _ _ => 0⟩
      else some ⟨DType.uint8, m.h, m.w, fun i j => u8scale mn mx (m.val i j)⟩

/-- `_to_uint8` acting on a 3-D array. -/
def to_uint8A3 (m : Arr3) : Option Arr3 :=
  if m.dtype = DType.uint8 then some m
  else
    match m.elems with
    | [] => none
    | x :: xs =>
      let mn := xs.foldl min x
      let mx := xs.foldl max x
      if mx ≤ mn then some ⟨DType.uint8, m.d0, m.d1, m.d2, fun _ _ _ => 0⟩
      else some ⟨DType.uint8, m.d0, m.d1, m.d2, fun i j k => u8scale mn mx (m.val i j k)⟩

/-- `_to_uint8` on a 2-D or 3-D array. -/
def to_uint8Nd : Nd → Option Nd
  | .a2 m => (to_uint8A2 m).map Nd.a2
  | .a3 m => (to_uint8A3 m).map Nd.a3

/-- `(mask > 0).astype(np.uint8)` on a 2-D array. -/
def binarizeA2 (m : Arr2) : Arr2 :=
  ⟨DType.uint8, m.h, m.w, fun i j => if 0 < m.val i j then 1 else 0⟩

/-- `(mask > 0).astype(np.uint8)` on a 3-D array. -/
def binarizeA3 (m : Arr3) : Arr3 :=
  ⟨DType.uint8, m.d0, m.d1, m.d2, fun i j k => if 0 < m.val i j k then 1 else 0⟩

/-- `(mask > 0).astype(np.uint8)` (volume_manager.py line 130). -/
def binarizeNd : Nd → Nd
  | .a2 m => .a2 (binarizeA2 m)
  | .a3 m => .a3 (binarizeA3 m)

/-- `np.zeros_like(volume, dtype=np.uint8)`. -/
def zerosNd : Nd → Nd
  | .a2 m => .a2 ⟨DType.uint8, m.h, m.w, fun _ _ => 0⟩
  | .a3 m => .a3 ⟨DType.uint8, m.d0, m.d1, m.d2, fun _ _ _ => 0⟩

/-- `cv2.resize(src, (w, h), interpolation=cv2.INTER_NEAREST)`: the output
has `h` rows and `w` columns, and destination pixel `(i, j)` reads source
pixel `(⌊i·srcH/h⌋, ⌊j·srcW/w⌋)` (OpenCV truncates `dst·scale` toward zero,
which is the floor for the non-negative indices involved). -/
def resizeNN (h w : ℕ) (src : Arr2) : Arr2 :=
  ⟨src.dtype, h, w, fun i j => src.val (i * src.h / h) (j * src.w / w)⟩

/-- A 3-axis permutation, written as the axis triple of `np.transpose`. -/
abbrev Perm3 := ℕ × ℕ × ℕ

/-- The fixed candidate list of `load_mask_like`
(volume_manager.py lines 107-114), in source order. -/
def candidates : List Perm3 :=
  [(0, 1, 2), (1, 0, 2), (2, 1, 0), (1, 2, 0), (2, 0, 1), (0, 2, 1)]

/-- `mask.shape[a]` for a 3-D array. -/
def Arr3.dim (m : Arr3) : ℕ → ℕ
  | 0 => m.d0
  | 1 => m.d1
  | _ => m.d2

/-- `tuple(np.array(mask.shape)[list(perm)])` (volume_manager.py line 118). -/
def permuteShape (p : Perm3) (m : Arr3) : List ℕ :=
  [m.dim p.1, m.dim p.2.1, m.dim p.2.2]

/-- `np.transpose(mask, perm)`: the result has shape
`(shape[p0], shape[p1], shape[p2])` and `result[i, j, k] = mask[x]` where
`x[p0] = i`, `x[p1] = j`, `x[p2] = k`. -/
def transposeP (p : Perm3) (m : Arr3) : Arr3 :=
  ⟨m.dtype, m.dim p.1, m.dim p.2.1, m.dim p.2.2, fun i j k =>
    m.val (if p.1 = 0 then i else if p.2.1 = 0 then j else k)
          (if p.1 = 1 then i else if p.2.1 = 1 then j else k)
          (if p.1 = 2 then i else if p.2.1 = 2 then j else k)⟩

/-- The resampling fallback of `load_mask_like`
(volume_manager.py lines 124-127):
`cv2.resize(mask[0] if mask.ndim == 3 else mask, (volume.shape[2],
volume.shape[1]), interpolation=cv2.INTER_NEAREST)` followed by
`np.stack([mask] * volume.shape[0], axis=0)`.  This part takes the already
selected 2-D representative slice: `none` models the exceptions raised here
(`cv2.resize` raises on an empty source or an empty target size, and
`np.stack([])` raises `ValueError` when `volume.shape[0] = 0`). -/
def fallbackFrom (src : Arr2) (v : Arr3) : Option Nd :=
  if src.h = 0 ∨ src.w = 0 ∨ v.d1 = 0 ∨ v.d2 = 0 then none
  else if v.d0 = 0 then none
  else some (.a3 ⟨(resizeNN v.d1 v.d2 src).dtype, v.d0, v.d1, v.d2,
    fun _ j k => (resizeNN v.d1 v.d2 src).val j k⟩)

/-- The resampling fallback, with the representative-slice selection
`mask[0] if mask.ndim == 3 else mask` (volume_manager.py line 126).
`none` additionally models the `IndexError` from `volume.shape[2]` when the
volume is 2-D and from `mask[0]` when the mask's first axis is empty. -/
def fallbackResize : Nd → Nd → Option Nd
  | _, .a2 _ => none
  | .a3 m, .a3 v =>
    if m.d0 = 0 then none
    else fallbackFrom ⟨m.dtype, m.d1, m.d2, fun j k => m.val 0 j k⟩ v
  | .a2 m, .a3 v => fallbackFrom m v

/-- The body of `load_mask_like` after the mask file has been read
(volume_manager.py lines 97-130): canonicalize, return as-is on an exact
shape match (note: without binarization), otherwise transpose by the first
matching candidate permutation (only tried for 3-D masks), otherwise
resample, and binarize the transposed/resampled result. -/
def alignLoaded (raw : Nd) (volume : Nd) : Option Nd :=
  (to_uint8Nd raw).bind fun mask =>
    if mask.shape = volume.shape then some mask
    else
      let transposed : Option Nd :=
        match mask with
        | .a3 m => (candidates.find? fun p => permuteShape p m == volume.shape).map
            fun p => Nd.a3 (transposeP p m)
        | .a2 _ => none
      (match transposed with
       | some t => some t
       | none => fallbackResize mask volume).map binarizeNd

/-- `load_mask_like(mask_path, volume)` (volume_manager.py lines 85-130).
`fs` models the file system joined with the TIFF decoder: `fs p` is the
decoded content of the file at path `p`, or `none` when no file exists
there.  A missing path and an absent path both yield the empty mask
(volume_manager.py lines 93-95). -/
def load_mask_like (maskPath : Option String) (fs : String → Option Nd)
    (volume : Nd) : Option Nd :=
  match maskPath with
  | none => some (zerosNd volume)
  | some p =>
    match fs p with
    | none => some (zerosNd volume)
    | some raw => alignLoaded raw volume

/-- `load_mask_like` with the decoded mask (or its absence) already in hand;
`load_mask_like maskPath fs volume = loadMaskCore (maskPath.bind fs) volume`. -/
def loadMaskCore (mopt : Option Nd) (volume : Nd) : Option Nd :=
  match mopt with
  | none => some (zerosNd volume)
  | some raw => alignLoaded raw volume

/-- The 3-D orientation heuristic of `load_image_or_stack`
(volume_manager.py lines 66-77): with raw shape `(z, y, x)`, if `y < z` and
`y < x` then `np.moveaxis(arr, 1, 0)`; elif `x < y` and `x < z` then
`np.moveaxis(arr, 2, 0)`; else unchanged. -/
def resolveOrientation (a : Arr3) : Arr3 :=
  if a.d1 < a.d0 ∧ a.d1 < a.d2 then
    ⟨a.dtype, a.d1, a.d0, a.d2, fun i j k => a.val j i k⟩
  else if a.d2 < a.d1 ∧ a.d2 < a.d0 then
    ⟨a.dtype, a.d2, a.d0, a.d1, fun i j k => a.val j k i⟩
  else a

/-- `cv2.cvtColor(arr, cv2.COLOR_BGR2GRAY)` on a `(h, w, channels)` array,
with OpenCV's fixed-point luminance coefficients for 8-bit data
(`(B·1868 + G·9617 + R·4899 + 2^13) >> 14`; channel order of `cv2.imread`
is BGR). -/
def grayArr (a : Arr3) : Arr2 :=
  ⟨a.dtype, a.d0, a.d1, fun i j =>
    ((⌊(a.val i j 0 * 1868 + a.val i j 1 * 9617 + a.val i j 2 * 4899 + 8192) / 16384⌋ : ℤ) : ℚ)⟩

/-- Errors of `load_image_or_stack`: `FileNotFoundError`
(volume_manager.py line 44), the final `ValueError: Unsupported file type`
(line 79), and the `ValueError` that `np.min` raises on a size-0 array
inside `_to_uint8`. -/
inductive LoadErr where
  | notFound
  | unsupported
  | emptyArr
deriving DecidableEq

/-- The extensions handled by the `cv2.imread` branch of
`load_image_or_stack` (volume_manager.py line 47). -/
def imgExts : List String := [".png", ".jpg", ".jpeg"]

/-- The extensions handled by the `tifffile` branch (line 55). -/
def tifExts : List String := [".tif", ".tiff"]

/-- `load_image_or_stack(path)` (volume_manager.py lines 36-79), with the
file-system interaction made explicit: `present` is `os.path.exists(path)`,
`ext` is the already-lowercased extension
`os.path.splitext(path)[-1].lower()`, and `decoded` is what
`cv2.imread`/`tifffile.imread` decodes the file to.  Decode failures are
outside this model (the decoders are external inputs here), so `decoded` is
always available. -/
def load_image_or_stack (present : Bool) (ext : String) (decoded : Nd) :
    Except LoadErr Nd :=
  if present = false then .error .notFound
  else
    if ext ∈ imgExts then
      let arr2 : Arr2 :=
        match decoded with
        | .a2 m => m
        | .a3 m => grayArr m
      match to_uint8A2 arr2 with
      | some r => .ok (.a2 r)
      | none => .error .emptyArr
    else if ext ∈ tifExts then
      match decoded with
      | .a2 m =>
        match to_uint8A2 m with
        | some r => .ok (.a2 r)
        | none => .error .emptyArr
      | .a3 m =>
        match to_uint8A3 m with
        | some r => .ok (.a3 (resolveOrientation r))
        | none => .error .emptyArr
    else .error .unsupported

/-- The binarization of a submitted bitmap in `api_mask_update`
(editor.py lines 142 and 159): `(np.array(img) > 127).astype(np.uint8)`. -/
def binarize127 (bmp : Arr2) : Arr2 :=
  ⟨DType.uint8, bmp.h, bmp.w, fun i j => if 127 < bmp.val i j then 1 else 0⟩

/-- One slice edit of `api_mask_update` (editor.py lines 139-149 for the
batch path, 155-166 for the single path; per-item code is identical):
binarize the decoded bitmap at threshold 127, resize it with nearest
neighbour to the mask's in-plane resolution, then write it — over the whole
mask for a 2-D mask, into `mask[z]` for a 3-D mask.  `z` is used as numpy
receives it: indices in `[-Z, Z)` are accepted (negative ones wrap), any
other value raises `IndexError`, modelled by `none`; `cv2.resize` on an
empty source or target also raises. -/
def applyEditNd (mask : Nd) (z : ℤ) (bmp : Arr2) : Option Nd :=
  match mask with
  | .a2 m =>
    if bmp.h = 0 ∨ bmp.w = 0 ∨ m.h = 0 ∨ m.w = 0 then none
    else
      let arr := resizeNN m.h m.w (binarize127 bmp)
      some (.a2 ⟨m.dtype, m.h, m.w, fun i j => arr.val i j⟩)
  | .a3 m =>
    if bmp.h = 0 ∨ bmp.w = 0 ∨ m.d1 = 0 ∨ m.d2 = 0 then none
    else
      let arr := resizeNN m.d1 m.d2 (binarize127 bmp)
      if z < -(m.d0 : ℤ) ∨ (m.d0 : ℤ) ≤ z then none
      else
        let zn := (if z < 0 then z + m.d0 else z).toNat
        some (.a3 ⟨m.dtype, m.d0, m.d1, m.d2, fun i j k =>
          if i = zn then arr.val j k else m.val i j k⟩)

/-- The `full_batch` loop of `api_mask_update` (editor.py lines 137-151):
edits are applied strictly in list order; an exception raised by any item
aborts the request. -/
def applyBatchNd (mask : Nd) (edits : List (ℤ × Arr2)) : Option Nd :=
  edits.foldlM (fun m e => applyEditNd m e.1 e.2) mask

/-- The in-plane height of the mask a slice edit writes to
(`mask.shape[0]` for 2-D, `mask.shape[1]` for 3-D). -/
def Nd.planeH : Nd → ℕ
  | .a2 m => m.h
  | .a3 m => m.d1

/-- The in-plane width of the mask a slice edit writes to. -/
def Nd.planeW : Nd → ℕ
  | .a2 m => m.w
  | .a3 m => m.d2

/-- The content a read of slice 0 sees: the whole mask for 2-D, `mask[0]`
for 3-D. -/
def Nd.slice0 : Nd → ℕ → ℕ → ℚ
  | .a2 m => m.val
  | .a3 m => m.val 0

/-- Concrete input for claim C6: a non-uint8 array with elements 0, 1, 2
(so `min = 0`, `max = 2`, and the middle element rescales to exactly 127.5,
where truncation and rounding disagree). -/
def c6arr : QArr := ⟨DType.other, [0, 1, 2]⟩

/-- A 10-slice all-zero uint8 mask, the `Z = 10` mask of claim C3. -/
def c3mask : Arr3 := ⟨DType.uint8, 10, 2, 2, fun _ _ _ => 0⟩

/-- A 2×2 all-255 bitmap, a submitted slice edit. -/
def c3bmp : Arr2 := ⟨DType.uint8, 2, 2, fun _ _ => 255⟩

/-- A 2×2 all-zero uint8 2-D volume (claims C1/C2 counterexamples). -/
def cexVol2 : Arr2 := ⟨DType.uint8, 2, 2, fun _ _ => 0⟩

/-- A 1×1 uint8 mask whose shape disagrees with `cexVol2`. -/
def cexMask11 : Arr2 := ⟨DType.uint8, 1, 1, fun _ _ => 0⟩

/-- A 1×1 all-zero uint8 2-D volume. -/
def cexVol1 : Arr2 := ⟨DType.uint8, 1, 1, fun _ _ => 0⟩

/-- A 1×1 uint8 mask holding 255: its shape matches `cexVol1` exactly. -/
def cexMask255 : Arr2 := ⟨DType.uint8, 1, 1, fun _ _ => 255⟩

/-- Concrete 3-D raw mask for the claim C4 witness, shape (1, 2, 3). -/
def c4raw : Arr3 := ⟨DType.uint8, 1, 2, 3, fun _ _ _ => 5⟩

/-- Concrete 3-D volume for the claim C4 witness, shape (2, 1, 3): the
mask's shape permuted by `(1, 0, 2)`. -/
def c4vol : Arr3 := ⟨DType.uint8, 2, 1, 3, fun _ _ _ => 0⟩

/-- Concrete 1×1×1 volume used by witnesses. -/
def w1vol : Nd := .a3 ⟨DType.uint8, 1, 1, 1, fun _ _ _ => 0⟩

/-- Concrete 1×1 bitmap with value 200 (above the edit threshold 127). -/
def w1bmpB : Arr2 := ⟨DType.uint8, 1, 1, fun _ _ => 200⟩

/-- Concrete 1×1 bitmap with value 50 (below the edit threshold 127). -/
def w1bmpA : Arr2 := ⟨DType.uint8, 1, 1, fun _ _ => 50⟩

/-- Concrete 1×1 uint8 2-D array used by the claim C8 witness. -/
def w8dec : Nd := .a2 ⟨DType.uint8, 1, 1, fun _ _ => 7⟩

lemma arr2_val_mem_elems (m : Arr2) {i j : ℕ} (hi : i < m.h) (hj : j < m.w) :
    m.val i j ∈ m.elems := by
  unfold Arr2.elems
  exact List.mem_flatMap.mpr ⟨i, List.mem_range.mpr hi,
    List.mem_map.mpr ⟨j, List.mem_range.mpr hj, rfl⟩⟩

lemma arr2_elems_ne_nil (m : Arr2) (hh : 0 < m.h) (hw : 0 < m.w) :
    m.elems ≠ [] := by
  intro hnil
  have := arr2_val_mem_elems m hh hw
  simp [hnil] at this

lemma arr3_val_mem_elems (m : Arr3) {i j k : ℕ} (hi : i < m.d0)
    (hj : j < m.d1) (hk : k < m.d2) : m.val i j k ∈ m.elems := by
  unfold Arr3.elems
  exact List.mem_flatMap.mpr ⟨i, List.mem_range.mpr hi,
    List.mem_flatMap.mpr ⟨j, List.mem_range.mpr hj,
      List.mem_map.mpr ⟨k, List.mem_range.mpr hk, rfl⟩⟩⟩

lemma arr3_elems_ne_nil (m : Arr3) (h0 : 0 < m.d0) (h1 : 0 < m.d1)
    (h2 : 0 < m.d2) : m.elems ≠ [] := by
  intro hnil
  have := arr3_val_mem_elems m h0 h1 h2
  simp [hnil] at this

lemma to_uint8A2_spec {m r : Arr2} (h : to_uint8A2 m = some r) :
    r.dtype = DType.uint8 ∧ r.h = m.h ∧ r.w = m.w := by
  unfold to_uint8A2 at h
  split at h
  · next hdt => cases h; exact ⟨hdt, rfl, rfl⟩
  · split at h
    · exact absurd h (by simp)
    · simp only [] at h
      split at h <;> (cases h; exact ⟨rfl, rfl, rfl⟩)

lemma to_uint8A2_total {m : Arr2} (hne : m.elems ≠ []) :
    ∃ r, to_uint8A2 m = some r := by
  unfold to_uint8A2
  split
  · exact ⟨m, rfl⟩
  · split
    · next hE => exact absurd hE hne
    · simp only []
      split <;> exact ⟨_, rfl⟩

lemma to_uint8A3_spec {m r : Arr3} (h : to_uint8A3 m = some r) :
    r.dtype = DType.uint8 ∧ r.d0 = m.d0 ∧ r.d1 = m.d1 ∧ r.d2 = m.d2 := by
  unfold to_uint8A3 at h
  split at h
  · next hdt => cases h; exact ⟨hdt, rfl, rfl, rfl⟩
  · split at h
    · exact absurd h (by simp)
    · simp only [] at h
      split at h <;> (cases h; exact ⟨rfl, rfl, rfl, rfl⟩)

lemma to_uint8A3_total {m : Arr3} (hne : m.elems ≠ []) :
    ∃ r, to_uint8A3 m = some r := by
  unfold to_uint8A3
  split
  · exact ⟨m, rfl⟩
  · split
    · next hE => exact absurd hE hne
    · simp only []
      split <;> exact ⟨_, rfl⟩

lemma to_uint8Nd_spec {a r : Nd} (h : to_uint8Nd a = some r) :
    r.shape = a.shape ∧ r.dtype = DType.uint8 := by
  cases a with
  | a2 m =>
    obtain ⟨r2, h2, rfl⟩ := Option.map_eq_some'.mp h
    obtain ⟨hd, hh, hw⟩ := to_uint8A2_spec h2
    exact ⟨by simp [Nd.shape, hh, hw], hd⟩
  | a3 m =>
    obtain ⟨r3, h3, rfl⟩ := Option.map_eq_some'.mp h
    obtain ⟨hd, h0, h1, h2⟩ := to_uint8A3_spec h3
    exact ⟨by simp [Nd.shape, h0, h1, h2], hd⟩

lemma to_uint8Nd_total {a : Nd} (hp : a.PosDims) :
    ∃ r, to_uint8Nd a = some r := by
  cases a with
  | a2 m =>
    obtain ⟨r2, h2⟩ := to_uint8A2_total (arr2_elems_ne_nil m hp.1 hp.2)
    exact ⟨.a2 r2, by simp [to_uint8Nd, h2]⟩
  | a3 m =>
    obtain ⟨r3, h3⟩ := to_uint8A3_total (arr3_elems_ne_nil m hp.1 hp.2.1 hp.2.2)
    exact ⟨.a3 r3, by simp [to_uint8Nd, h3]⟩

lemma binarizeNd_shape (a : Nd) : (binarizeNd a).shape = a.shape := by
  cases a <;> rfl

lemma binarizeNd_dtype (a : Nd) : (binarizeNd a).dtype = DType.uint8 := by
  cases a <;> rfl

lemma binarizeNd_vals (a : Nd) :
    (binarizeNd a).AllVals fun x => x = 0 ∨ x = 1 := by
  cases a with
  | a2 m =>
    intro i j _ _
    by_cases h : 0 < m.val i j <;> simp [binarizeNd, binarizeA2, Nd.AllVals, h]
  | a3 m =>
    intro i j k _ _ _
    by_cases h : 0 < m.val i j k <;> simp [binarizeNd, binarizeA3, Nd.AllVals, h]

lemma zerosNd_shape (v : Nd) : (zerosNd v).shape = v.shape := by
  cases v <;> rfl

lemma zerosNd_dtype (v : Nd) : (zerosNd v).dtype = DType.uint8 := by
  cases v <;> rfl

lemma zerosNd_vals (v : Nd) : (zerosNd v).AllVals fun x => x = 0 := by
  cases v <;> (intro _ _; first | (intro _ _; rfl) | (intro _ _ _ _; rfl))

lemma fallbackFrom_shape {src : Arr2} {v : Arr3} {r : Nd}
    (h : fallbackFrom src v = some r) : r.shape = (Nd.a3 v).shape := by
  unfold fallbackFrom at h
  split at h
  · exact absurd h (by simp)
  · split at h
    · exact absurd h (by simp)
    · cases h; rfl

lemma fallbackFrom_total {src : Arr2} {v : Arr3} (hh : 0 < src.h)
    (hw : 0 < src.w) (h0 : 0 < v.d0) (h1 : 0 < v.d1) (h2 : 0 < v.d2) :
    ∃ r, fallbackFrom src v = some r := by
  have hg : ¬(src.h = 0 ∨ src.w = 0 ∨ v.d1 = 0 ∨ v.d2 = 0) := by
    push_neg
    exact ⟨Nat.pos_iff_ne_zero.mp hh, Nat.pos_iff_ne_zero.mp hw,
      Nat.pos_iff_ne_zero.mp h1, Nat.pos_iff_ne_zero.mp h2⟩
  unfold fallbackFrom
  simp [hg, Nat.pos_iff_ne_zero.mp h0]

lemma fallbackResize_shape {mask volume r : Nd}
    (h : fallbackResize mask volume = some r) : r.shape = volume.shape := by
  cases volume with
  | a2 _ => exact absurd h (by cases mask <;> simp [fallbackResize])
  | a3 v =>
    cases mask with
    | a3 m =>
      simp only [fallbackResize] at h
      split at h
      · exact absurd h (by simp)
      · exact fallbackFrom_shape h
    | a2 m =>
      simp only [fallbackResize] at h
      exact fallbackFrom_shape h

lemma fallbackResize_total {a : Nd} {v : Arr3} (hm : a.PosDims)
    (h0 : 0 < v.d0) (h1 : 0 < v.d1) (h2 : 0 < v.d2) :
    ∃ r, fallbackResize a (.a3 v) = some r := by
  cases a with
  | a3 m =>
    simp only [fallbackResize]
    rw [if_neg (Nat.pos_iff_ne_zero.mp hm.1)]
    exact fallbackFrom_total hm.2.1 hm.2.2 h0 h1 h2
  | a2 m =>
    simp only [fallbackResize]
    exact fallbackFrom_total hm.1 hm.2 h0 h1 h2

lemma Nd.posDims_of_shape_eq {a b : Nd} (h : a.shape = b.shape)
    (hb : b.PosDims) : a.PosDims := by
  cases a with
  | a2 m =>
    cases b with
    | a2 m2 =>
      simp only [Nd.shape, List.cons.injEq, and_true] at h
      exact ⟨h.1 ▸ hb.1, h.2 ▸ hb.2⟩
    | a3 m3 => simp [Nd.shape] at h
  | a3 m =>
    cases b with
    | a2 m2 => simp [Nd.shape] at h
    | a3 m3 =>
      simp only [Nd.shape, List.cons.injEq, and_true] at h
      exact ⟨h.1 ▸ hb.1, h.2.1 ▸ hb.2.1, h.2.2 ▸ hb.2.2⟩

lemma Nd.allVals_mono {a : Nd} {P Q : ℚ → Prop} (h : a.AllVals P)
    (hPQ : ∀ x, P x → Q x) : a.AllVals Q := by
  cases a with
  | a2 m => exact fun i j hi hj => hPQ _ (h i j hi hj)
  | a3 m => exact fun i j k hi hj hk => hPQ _ (h i j k hi hj hk)

/-- Every successful run of `load_mask_like`'s core returns either the empty
mask, the canonicalized mask unchanged (exact shape match), or a binarized
array (permutation and resampling paths both flow through line 130). -/
lemma loadMaskCore_cases {mopt : Option Nd} {v r : Nd}
    (h : loadMaskCore mopt v = some r) :
    r = zerosNd v ∨
    (∃ raw mask, mopt = some raw ∧ to_uint8Nd raw = some mask ∧
      mask.shape = v.shape ∧ r = mask) ∨
    (∃ a, r = binarizeNd a) := by
  cases mopt with
  | none =>
    cases h
    exact Or.inl rfl
  | some raw =>
    simp only [loadMaskCore] at h
    unfold alignLoaded at h
    cases hm : to_uint8Nd raw with
    | none => rw [hm] at h; exact absurd h (by simp)
    | some mask =>
      rw [hm, Option.some_bind] at h
      split at h
      · next heq =>
        have hrm : mask = r := by injection h
        subst hrm
        exact Or.inr (Or.inl ⟨raw, _, rfl, hm, heq, rfl⟩)
      · obtain ⟨a, _, rfl⟩ := Option.map_eq_some'.mp h
        exact Or.inr (Or.inr ⟨a, rfl⟩)

lemma applyEdit_a2_eq {m b : Arr2} (z : ℤ) (hbh : 0 < b.h)
    (hbw : 0 < b.w) (hh : 0 < m.h) (hw : 0 < m.w) :
    applyEditNd (.a2 m) z b =
      some (.a2 ⟨m.dtype, m.h, m.w,
        fun i j => (resizeNN m.h m.w (binarize127 b)).val i j⟩) := by
  simp only [applyEditNd]
  rw [if_neg (by omega)]

lemma applyEdit_a3_eq {m : Arr3} {b : Arr2} {z : ℤ} (hbh : 0 < b.h)
    (hbw : 0 < b.w) (h1 : 0 < m.d1) (h2 : 0 < m.d2)
    (hz : ¬(z < -(m.d0 : ℤ) ∨ (m.d0 : ℤ) ≤ z)) :
    applyEditNd (.a3 m) z b =
      some (.a3 ⟨m.dtype, m.d0, m.d1, m.d2, fun i j k =>
        if i = (if z < 0 then z + m.d0 else z).toNat
        then (resizeNN m.d1 m.d2 (binarize127 b)).val j k
        else m.val i j k⟩) := by
  simp only [applyEditNd]
  rw [if_neg (by omega), if_neg hz]

lemma resolveOrientation_dtype (a : Arr3) :
    (resolveOrientation a).dtype = a.dtype := by
  unfold resolveOrientation
  split
  · rfl
  · split <;> rfl

/-- Claim C5: the orientation resolver of `load_image_or_stack` moves axis 1
to the front when `d1` is strictly smallest, else moves axis 2 to the front
when `d2` is strictly smallest, else leaves the array unchanged. -/
theorem c5_orientation (a : Arr3) :
    (a.d1 < a.d0 → a.d1 < a.d2 →
      resolveOrientation a =
        ⟨a.dtype, a.d1, a.d0, a.d2, fun i j k => a.val j i k⟩) ∧
    (¬(a.d1 < a.d0 ∧ a.d1 < a.d2) → a.d2 < a.d1 → a.d2 < a.d0 →
      resolveOrientation a =
        ⟨a.dtype, a.d2, a.d0, a.d1, fun i j k => a.val j k i⟩) ∧
    (¬(a.d1 < a.d0 ∧ a.d1 < a.d2) → ¬(a.d2 < a.d1 ∧ a.d2 < a.d0) →
      resolveOrientation a = a) := by
  refine ⟨fun h1 h2 => ?_, fun hn h1 h2 => ?_, fun hn1 hn2 => ?_⟩
  · unfold resolveOrientation
    rw [if_pos ⟨h1, h2⟩]
  · unfold resolveOrientation
    rw [if_neg hn, if_pos ⟨h1, h2⟩]
  · unfold resolveOrientation
    rw [if_neg hn1, if_neg hn2]

/-- Concrete `(100, 8, 100)` stack of claim C5. -/
def c5ex : Arr3 := ⟨DType.uint8, 100, 8, 100, fun _ _ _ => 0⟩

/-- Witness for claim C5: the `(100, 8, 100)` stack is reordered to
`(8, 100, 100)` by moving axis 1 to the front. -/
theorem c5_orientation_witness :
    resolveOrientation c5ex =
      ⟨DType.uint8, 8, 100, 100, fun i j k => c5ex.val j i k⟩ :=
  (c5_orientation c5ex).1 (by decide) (by decide)

/-- Claim C9: canonicalization is idempotent — whenever `_to_uint8`
returns a result, applying it again returns that result unchanged. -/
theorem c9_idempotent (a r : QArr) (h : to_uint8 a = some r) :
    to_uint8 r = some r := by
  have hdt : r.dtype = DType.uint8 := by
    unfold to_uint8 at h
    split at h
    · next ha => cases h; exact ha
    · split at h
      · exact absurd h (by simp)
      · simp only [] at h
        split at h <;> (cases h; rfl)
  unfold to_uint8
  rw [if_pos hdt]

/-- Witness for claim C9 at the concrete input `⟨other, [5]⟩`, whose
canonicalization is the constant-image zero array. -/
theorem c9_idempotent_witness :
    to_uint8 ⟨DType.uint8, [0]⟩ = some ⟨DType.uint8, [0]⟩ :=
  c9_idempotent ⟨DType.other, [5]⟩ _ (by simp [to_uint8])

/-- Claim C6 counterexample: on input `[0, 1, 2]` (non-uint8) the middle
element rescales to 127.5; `astype(np.uint8)` truncates it to 127, while
the claimed formula `clip(round(...), 0, 255)` yields 128.  So the code's
output does not satisfy the claimed elementwise rounding formula. -/
theorem c6_to_uint8_counterexample :
    to_uint8 c6arr = some ⟨DType.uint8, [0, 127, 255]⟩ ∧
    claimedRoundElem 0 2 1 = 128 ∧ (127 : ℚ) ≠ 128 := by
  refine ⟨?_, ?_, by norm_num⟩
  · unfold to_uint8 c6arr
    norm_num [u8scale, u8cast, clipQ, min_def, max_def]
    decide
  · unfold claimedRoundElem clipQ
    norm_num

/-- Claim C6 (amended): `_to_uint8` returns uint8 input unchanged, returns
zeros when `max ≤ min`, and otherwise every output element is
`clip((x - min) / (max - min) * 255, 0, 255)` truncated to an integer
(floor) — not rounded to the nearest integer as the claim stated. -/
theorem c6_to_uint8_amended (a : QArr) :
    (a.dtype = DType.uint8 → to_uint8 a = some a) ∧
    (a.dtype ≠ DType.uint8 → ∀ x xs, a.data = x :: xs →
      ((xs.foldl max x ≤ xs.foldl min x →
        to_uint8 a = some ⟨DType.uint8, a.data.map fun _ => 0⟩) ∧
       (xs.foldl min x < xs.foldl max x →
        ∃ r, to_uint8 a = some r ∧ r.dtype = DType.uint8 ∧
          r.data.length = a.data.length ∧
          ∀ i, ∀ hi : i < a.data.length, ∀ hr : i < r.data.length,
            r.data.get ⟨i, hr⟩ =
              u8cast (clipQ 0 255
                ((a.data.get ⟨i, hi⟩ - xs.foldl min x) /
                  (xs.foldl max x - xs.foldl min x) * 255))))) := by
  constructor
  · intro hdt
    unfold to_uint8
    rw [if_pos hdt]
  · intro hdt x xs hdata
    constructor
    · intro hle
      unfold to_uint8
      rw [if_neg hdt]
      simp only [hdata]
      rw [if_pos hle]
    · intro hlt
      refine ⟨⟨DType.uint8,
        a.data.map fun t => u8scale (xs.foldl min x) (xs.foldl max x) t⟩,
        ?_, rfl, by simp, ?_⟩
      · unfold to_uint8
        rw [if_neg hdt]
        simp only [hdata]
        rw [if_neg (not_le.mpr hlt)]
      · intro i hi hr
        simp [List.get_eq_getElem, List.getElem_map, u8scale]

/-- Witness for claim C6 (amended) at the concrete input `⟨other, [0, 1, 2]⟩`,
taking the rescale branch. -/
theorem c6_to_uint8_amended_witness :
    ∃ r, to_uint8 c6arr = some r ∧ r.dtype = DType.uint8 ∧
      r.data.length = c6arr.data.length ∧
      ∀ i, ∀ hi : i < c6arr.data.length, ∀ hr : i < r.data.length,
        r.data.get ⟨i, hr⟩ =
          u8cast (clipQ 0 255
            ((c6arr.data.get ⟨i, hi⟩ - List.foldl min 0 [1, 2]) /
              (List.foldl max 0 [1, 2] - List.foldl min 0 [1, 2]) * 255)) :=
  ((c6_to_uint8_amended c6arr).2 (by decide) 0 [1, 2] rfl).2 (by decide)

/-- Claim C3 is contradicted by the code: `api_mask_update` indexes
`mask[z]` without clamping, so an edit with `z = 99` on a 10-slice mask
raises `IndexError` (modelled by `none`) instead of writing slice 9.  This
theorem evaluates the edit applicator at the claim's own failing input. -/
theorem c3_unclamped_raises : applyEditNd (.a3 c3mask) 99 c3bmp = none := by
  unfold applyEditNd c3mask c3bmp
  norm_num

/-- Claim C10: a supplied mask path with no file behind it does not raise —
`load_mask_like` returns the all-zero uint8 mask of the volume's shape,
exactly as in the absent-mask (`None`) case. -/
theorem c10_missing_mask_path (p : String) (fs : String → Option Nd)
    (v : Nd) (h : fs p = none) :
    load_mask_like (some p) fs v = some (zerosNd v) ∧
    load_mask_like (some p) fs v = load_mask_like none fs v ∧
    (zerosNd v).shape = v.shape ∧ (zerosNd v).dtype = DType.uint8 ∧
    (zerosNd v).AllVals fun x => x = 0 := by
  refine ⟨?_, ?_, zerosNd_shape v, zerosNd_dtype v, zerosNd_vals v⟩
  · simp [load_mask_like, h]
  · simp [load_mask_like, h]

/-- Claim C7: a batch of two edits to slice 0 is applied in list order, so
the later bitmap `B` wins: after `apply_batch(mask, [(0, A), (0, B)])`,
slice 0 equals the binarized (`> 127`), nearest-neighbour-resampled `B`. -/
theorem c7_batch_order (mask : Nd) (A B : Arr2) (hAh : 0 < A.h)
    (hAw : 0 < A.w) (hBh : 0 < B.h) (hBw : 0 < B.w) (hm : mask.PosDims) :
    ∃ r, applyBatchNd mask [((0 : ℤ), A), ((0 : ℤ), B)] = some r ∧
      ∀ j k, j < mask.planeH → k < mask.planeW →
        r.slice0 j k =
          (resizeNN mask.planeH mask.planeW (binarize127 B)).val j k := by
  cases mask with
  | a2 m =>
    obtain ⟨hh, hw⟩ := hm
    have e1 := applyEdit_a2_eq (m := m) (b := A) 0 hAh hAw hh hw
    have e2 := applyEdit_a2_eq
      (m := ⟨m.dtype, m.h, m.w, fun i j => (resizeNN m.h m.w (binarize127 A)).val i j⟩)
      (b := B) 0 hBh hBw hh hw
    have hbatch : applyBatchNd (.a2 m) [((0 : ℤ), A), ((0 : ℤ), B)] =
        applyEditNd (.a2 ⟨m.dtype, m.h, m.w,
          fun i j => (resizeNN m.h m.w (binarize127 A)).val i j⟩) 0 B := by
      unfold applyBatchNd
      simp only [List.foldlM_cons, List.foldlM_nil, e1, Option.some_bind,
        bind_pure]
      rfl
    refine ⟨_, hbatch.trans e2, ?_⟩
    intro j k _ _
    rfl
  | a3 m =>
    obtain ⟨h0, h1, h2⟩ := hm
    have hz : ¬((0 : ℤ) < -(m.d0 : ℤ) ∨ (m.d0 : ℤ) ≤ 0) := by omega
    have e1 := applyEdit_a3_eq (m := m) (b := A) (z := 0) hAh hAw h1 h2 hz
    have e2 := applyEdit_a3_eq
      (m := ⟨m.dtype, m.d0, m.d1, m.d2, fun i j k =>
        if i = (if (0 : ℤ) < 0 then (0 : ℤ) + m.d0 else 0).toNat
        then (resizeNN m.d1 m.d2 (binarize127 A)).val j k
        else m.val i j k⟩)
      (b := B) (z := 0) hBh hBw h1 h2 hz
    have hbatch : applyBatchNd (.a3 m) [((0 : ℤ), A), ((0 : ℤ), B)] =
        applyEditNd (.a3 ⟨m.dtype, m.d0, m.d1, m.d2, fun i j k =>
          if i = (if (0 : ℤ) < 0 then (0 : ℤ) + m.d0 else 0).toNat
          then (resizeNN m.d1 m.d2 (binarize127 A)).val j k
          else m.val i j k⟩) 0 B := by
      unfold applyBatchNd
      simp only [List.foldlM_cons, List.foldlM_nil, e1, Option.some_bind,
        bind_pure]
      rfl
    refine ⟨_, hbatch.trans e2, ?_⟩
    intro j k _ _
    simp [Nd.slice0, Nd.planeH, Nd.planeW]

/-- Witness for claim C7 on a 1×1×1 mask with bitmaps 50 (A) and 200 (B). -/
theorem c7_batch_order_witness :
    ∃ r, applyBatchNd w1vol [((0 : ℤ), w1bmpA), ((0 : ℤ), w1bmpB)] = some r ∧
      ∀ j k, j < w1vol.planeH → k < w1vol.planeW →
        r.slice0 j k =
          (resizeNN w1vol.planeH w1vol.planeW (binarize127 w1bmpB)).val j k :=
  c7_batch_order w1vol w1bmpA w1bmpB (by decide) (by decide) (by decide)
    (by decide) (by simp [w1vol, Nd.PosDims])

/-- Claim C4: when the canonicalized 3-D mask's shape differs from the
target shape but some candidate permutation matches, alignment returns
exactly the transpose by the first matching candidate (in source list
order), binarized — the resampling fallback is not taken. -/
theorem c4_permutation (raw : Arr3) (v : Nd) (mc : Arr3) (p : Perm3)
    (hc : to_uint8A3 raw = some mc)
    (hne : (Nd.a3 mc).shape ≠ v.shape)
    (hf : candidates.find? (fun q => permuteShape q mc == v.shape) = some p) :
    alignLoaded (.a3 raw) v = some (.a3 (binarizeA3 (transposeP p mc))) := by
  simp only [alignLoaded, to_uint8Nd, hc, Option.map_some', Option.some_bind]
  rw [if_neg hne]
  simp [hf, binarizeNd]

/-- Witness for claim C4: a `(1, 2, 3)` uint8 mask against a `(2, 1, 3)`
volume is aligned by the swap-first-two permutation `(1, 0, 2)`. -/
theorem c4_permutation_witness :
    alignLoaded (.a3 c4raw) (.a3 c4vol) =
      some (.a3 (binarizeA3 (transposeP (1, 0, 2) c4raw))) :=
  c4_permutation c4raw (.a3 c4vol) c4raw (1, 0, 2) rfl (by decide) (by decide)

/-- Witness for claim C10: a mask path pointing into an empty file system
yields the same empty mask as passing no path at all. -/
theorem c10_missing_mask_path_witness :
    load_mask_like (some "mask.tif") (fun _ => none) w1vol =
      some (zerosNd w1vol) ∧
    load_mask_like (some "mask.tif") (fun _ => none) w1vol =
      load_mask_like none (fun _ => none) w1vol ∧
    (zerosNd w1vol).shape = w1vol.shape ∧
    (zerosNd w1vol).dtype = DType.uint8 ∧
    (zerosNd w1vol).AllVals fun x => x = 0 :=
  c10_missing_mask_path "mask.tif" (fun _ => none) w1vol rfl


/-- Claim C8: `load_image_or_stack` fails with `FileNotFoundError` when the
path does not exist, fails with the unsupported-type `ValueError` when the
path exists but the extension is recognized by neither branch, and returns
a uint8 volume of rank 2 or 3 for recognized, decodable (nonempty 2-D/3-D)
inputs. -/
theorem c8_load_volume (present : Bool) (ext : String) (decoded : Nd) :
    (present = false →
      load_image_or_stack present ext decoded = .error .notFound) ∧
    (present = true → ext ∉ imgExts → ext ∉ tifExts →
      load_image_or_stack present ext decoded = .error .unsupported) ∧
    (present = true → (ext ∈ imgExts ∨ ext ∈ tifExts) →
      decoded.PosDims →
      ∃ v, load_image_or_stack present ext decoded = .ok v ∧
        v.dtype = DType.uint8 ∧ (v.ndim = 2 ∨ v.ndim = 3)) := by
  refine ⟨fun hp => ?_, fun hp hni hnt => ?_, fun hp hmem hpos => ?_⟩
  · unfold load_image_or_stack
    rw [if_pos hp]
  · unfold load_image_or_stack
    rw [if_neg (by simp [hp]), if_neg hni, if_neg hnt]
  · unfold load_image_or_stack
    rw [if_neg (by simp [hp])]
    rcases hmem with hmi | hmt
    · rw [if_pos hmi]
      cases decoded with
      | a2 m =>
        obtain ⟨r, hr⟩ := to_uint8A2_total (arr2_elems_ne_nil m hpos.1 hpos.2)
        exact ⟨.a2 r, by simp [hr], (to_uint8A2_spec hr).1, Or.inl rfl⟩
      | a3 m =>
        obtain ⟨r, hr⟩ :=
          to_uint8A2_total (arr2_elems_ne_nil (grayArr m) hpos.1 hpos.2.1)
        exact ⟨.a2 r, by simp [hr], (to_uint8A2_spec hr).1, Or.inl rfl⟩
    · have hni2 : ext ∉ imgExts := by
        have hmt2 := hmt
        simp only [tifExts, List.mem_cons, List.not_mem_nil, or_false] at hmt2
        rcases hmt2 with h | h <;> rw [h] <;> decide
      rw [if_neg hni2, if_pos hmt]
      cases decoded with
      | a2 m =>
        obtain ⟨r, hr⟩ := to_uint8A2_total (arr2_elems_ne_nil m hpos.1 hpos.2)
        exact ⟨.a2 r, by simp [hr], (to_uint8A2_spec hr).1, Or.inl rfl⟩
      | a3 m =>
        obtain ⟨r, hr⟩ :=
          to_uint8A3_total (arr3_elems_ne_nil m hpos.1 hpos.2.1 hpos.2.2)
        refine ⟨.a3 (resolveOrientation r), by simp [hr], ?_, Or.inr rfl⟩
        show (resolveOrientation r).dtype = DType.uint8
        rw [resolveOrientation_dtype]
        exact (to_uint8A3_spec hr).1

/-- Witness for claim C8: a nonempty 1×1 uint8 TIFF decodes to a rank-2
uint8 volume. -/
theorem c8_load_volume_witness :
    ∃ v, load_image_or_stack true ".tif" w8dec = .ok v ∧
      v.dtype = DType.uint8 ∧ (v.ndim = 2 ∨ v.ndim = 3) :=
  (c8_load_volume true ".tif" w8dec).2.2 rfl (Or.inr (by decide))
    (by simp [w8dec, Nd.PosDims])

/-- Claim C1 counterexample: a 2-D volume with a shape-mismatched 2-D mask
reaches the resampling fallback, which evaluates `volume.shape[2]` and
raises `IndexError` (modelled by `none`): alignment does not return a mask
at all, so the hard shape postcondition fails for 2-D volumes. -/
theorem c1_postcondition_counterexample :
    loadMaskCore (some (.a2 cexMask11)) (.a2 cexVol2) = none := rfl

/-- Claim C1 (amended): the shape postcondition `result.shape = volume.shape`
holds — without raising — for every nonempty 3-D volume against every
nonempty mask (all paths), and for 2-D volumes only on the absent-mask and
exact-shape-match paths; a 2-D volume with a shape-mismatched mask raises. -/
theorem c1_postcondition_amended (mopt : Option Nd) (v : Nd)
    (hv : v.PosDims) (hm : ∀ m ∈ mopt, m.PosDims)
    (hcase : v.ndim = 3 ∨ mopt = none ∨ ∀ m ∈ mopt, m.shape = v.shape) :
    ∃ r, loadMaskCore mopt v = some r ∧ r.shape = v.shape := by
  cases mopt with
  | none => exact ⟨zerosNd v, rfl, zerosNd_shape v⟩
  | some raw =>
    have hmp : raw.PosDims := hm raw rfl
    obtain ⟨mask, hmask⟩ := to_uint8Nd_total hmp
    obtain ⟨hshape, _⟩ := to_uint8Nd_spec hmask
    simp only [loadMaskCore]
    unfold alignLoaded
    rw [hmask, Option.some_bind]
    by_cases heq : mask.shape = v.shape
    · rw [if_pos heq]
      exact ⟨mask, rfl, heq⟩
    · rw [if_neg heq]
      have hmaskp : mask.PosDims := Nd.posDims_of_shape_eq hshape hmp
      obtain ⟨v3, rfl⟩ : ∃ v3, v = .a3 v3 := by
        rcases hcase with h3 | hnone | hsh
        · cases v with
          | a2 _ => simp [Nd.ndim] at h3
          | a3 v3 => exact ⟨v3, rfl⟩
        · exact absurd hnone (by simp)
        · exact absurd (hshape.trans (hsh raw rfl)) heq
      obtain ⟨h0, h1, h2⟩ := hv
      cases mask with
      | a2 m2 =>
        obtain ⟨r, hr⟩ := fallbackResize_total (a := .a2 m2) hmaskp h0 h1 h2
        refine ⟨binarizeNd r, ?_,
          (binarizeNd_shape r).trans (fallbackResize_shape hr)⟩
        simp only [hr, Option.map_some']
      | a3 m3 =>
        cases hf : candidates.find?
            (fun p => permuteShape p m3 == (Nd.a3 v3).shape) with
        | some p =>
          refine ⟨binarizeNd (.a3 (transposeP p m3)), ?_, ?_⟩
          · simp only [hf, Option.map_some']
          · have hbeq := List.find?_some hf
            have heq2 : permuteShape p m3 = (Nd.a3 v3).shape := by
              simpa using hbeq
            rw [binarizeNd_shape]
            exact heq2
        | none =>
          obtain ⟨r, hr⟩ := fallbackResize_total (a := .a3 m3) hmaskp h0 h1 h2
          refine ⟨binarizeNd r, ?_,
            (binarizeNd_shape r).trans (fallbackResize_shape hr)⟩
          simp only [hf, hr, Option.map_none', Option.map_some']

/-- Witness for claim C1 (amended): the absent-mask case on a 1×1×1 volume. -/
theorem c1_postcondition_amended_witness :
    ∃ r, loadMaskCore none w1vol = some r ∧ r.shape = w1vol.shape :=
  c1_postcondition_amended none w1vol (by simp [w1vol, Nd.PosDims])
    (by simp) (Or.inr (Or.inl rfl))

lemma ite01 (c : Prop) [Decidable c] :
    (if c then (1 : ℚ) else 0) = 0 ∨ (if c then (1 : ℚ) else 0) = 1 := by
  split
  · exact Or.inr rfl
  · exact Or.inl rfl

/-- Claim C2 counterexample: a uint8 mask holding 255 whose shape matches
the volume exactly is returned as-is — `load_mask_like` line 104 skips the
binarization that only line 130 applies — so an aligned mask can hold
elements outside `{0, 1}`. -/
theorem c2_binary_counterexample :
    loadMaskCore (some (.a2 cexMask255)) (.a2 cexVol1) =
      some (.a2 cexMask255) ∧
    cexMask255.val 0 0 = 255 ∧ ¬((255 : ℚ) = 0 ∨ (255 : ℚ) = 1) := by
  refine ⟨rfl, rfl, ?_⟩
  norm_num

/-- Claim C2 (amended): after any alignment the mask's dtype is uint8, and
its elements all lie in `{0, 1}` on the absent-mask, permutation and
resampling paths — but not necessarily on the exact-shape-match path, which
returns the canonicalized mask without binarization.  An accepted edit
writes only values in `{0, 1}` into the replaced slice and leaves all other
elements unchanged (so a mask that was binary stays binary). -/
theorem c2_binary_amended :
    (∀ (mopt : Option Nd) (v r : Nd), loadMaskCore mopt v = some r →
      r.dtype = DType.uint8) ∧
    (∀ (mopt : Option Nd) (v r : Nd),
      (mopt = none ∨ ∀ m ∈ mopt, m.shape ≠ v.shape) →
      loadMaskCore mopt v = some r →
      r.AllVals fun x => x = 0 ∨ x = 1) ∧
    (∀ (m : Arr3) (z : ℤ) (bmp : Arr2) (r : Arr3),
      applyEditNd (.a3 m) z bmp = some (.a3 r) →
      ∀ i j k, i < m.d0 → j < m.d1 → k < m.d2 →
        r.val i j k = m.val i j k ∨ r.val i j k = 0 ∨ r.val i j k = 1) ∧
    (∀ (m : Arr2) (z : ℤ) (bmp : Arr2) (r : Arr2),
      applyEditNd (.a2 m) z bmp = some (.a2 r) →
      ∀ i j, i < m.h → j < m.w → r.val i j = 0 ∨ r.val i j = 1) := by
  refine ⟨?_, ?_, ?_, ?_⟩
  · intro mopt v r h
    rcases loadMaskCore_cases h with rfl | ⟨raw, mask, _, hmask, _, rfl⟩ | ⟨a, rfl⟩
    · exact zerosNd_dtype v
    · exact (to_uint8Nd_spec hmask).2
    · exact binarizeNd_dtype a
  · intro mopt v r hmis h
    rcases loadMaskCore_cases h with rfl | ⟨raw, mask, hopt, hmask, hsh, rfl⟩ | ⟨a, rfl⟩
    · exact Nd.allVals_mono (zerosNd_vals v) fun x hx => Or.inl hx
    · rcases hmis with hnone | hne
      · rw [hnone] at hopt
        exact absurd hopt (by simp)
      · exact absurd ((to_uint8Nd_spec hmask).1.symm.trans hsh) (hne raw hopt)
    · exact binarizeNd_vals a
  · intro m z bmp r h i j k hi hj hk
    simp only [applyEditNd] at h
    split at h
    · exact absurd h (by simp)
    · split at h
      · exact absurd h (by simp)
      · have hs := Option.some.inj h
        injection hs with hs3
        subst hs3
        by_cases hzz : i = (if z < 0 then z + m.d0 else z).toNat
        · refine Or.inr ?_
          show (if i = (if z < 0 then z + m.d0 else z).toNat
            then (resizeNN m.d1 m.d2 (binarize127 bmp)).val j k
            else m.val i j k) = 0 ∨
            (if i = (if z < 0 then z + m.d0 else z).toNat
            then (resizeNN m.d1 m.d2 (binarize127 bmp)).val j k
            else m.val i j k) = 1
          rw [if_pos hzz]
          exact ite01 _
        · refine Or.inl ?_
          show (if i = (if z < 0 then z + m.d0 else z).toNat
            then (resizeNN m.d1 m.d2 (binarize127 bmp)).val j k
            else m.val i j k) = m.val i j k
          rw [if_neg hzz]
  · intro m z bmp r h i j hi hj
    simp only [applyEditNd] at h
    split at h
    · exact absurd h (by simp)
    · have hs := Option.some.inj h
      injection hs with hs3
      subst hs3
      exact ite01 _

/-- Witness for claim C2 (amended): the absent-mask alignment on a 1×1×1
volume gives a uint8 mask whose elements are in `{0, 1}`. -/
theorem c2_binary_amended_witness :
    (zerosNd w1vol).dtype = DType.uint8 ∧
    ((zerosNd w1vol).AllVals fun x => x = 0 ∨ x = 1) :=
  ⟨c2_binary_amended.1 none w1vol _ rfl,
    c2_binary_amended.2.1 none w1vol _ (Or.inl rfl) rfl⟩
